import Mathlib

/- Verification development for the OpenAPI definition generator
   (src/DefinitionGenerator.ts of serverless-openapi-documentation).

   The generator manipulates dynamic JavaScript objects; we embed those as a
   JSON-like value type with association-list objects, and embed each method of
   the DefinitionGenerator class as a pure Lean function over that type.
   JavaScript property reads return an `Option Json` (with `none` playing the
   role of `undefined`), property assignment is in-place key update, and
   fallible paths (runtime TypeErrors and the one explicit `throw`) are
   modelled with `Except`. -/

/-- JSON-like values: the dynamic objects the generator builds and consumes.
    Objects are ordered association lists, matching JavaScript property
    insertion order; keys are unique in every object the generator builds. -/
inductive Json where
  | null : Json
  | bool : Bool → Json
  | num : Int → Json
  | str : String → Json
  | arr : List Json → Json
  | obj : List (String × Json) → Json

/-- First value bound to a key in an object field list (a JavaScript property
    read; `none` plays the role of `undefined`). -/
def findVal : List (String × Json) → String → Option Json
  | [], _ => none
  | (k, v) :: rest, key => if k = key then some v else findVal rest key

/-- JavaScript property assignment on a field list: replaces the value in
    place when the key exists, otherwise appends the binding. -/
def setKey : List (String × Json) → String → Json → List (String × Json)
  | [], k, v => [(k, v)]
  | (k1, v1) :: rest, k, v =>
      if k1 = k then (k, v) :: rest else (k1, v1) :: setKey rest k v

/-- JavaScript `delete o[k]`. Keys are unique in JavaScript objects, so
    removing every binding of the key models it. -/
def eraseKey (fs : List (String × Json)) (k : String) : List (String × Json) :=
  fs.filter (fun kv => kv.1 != k)

/-- Whether a field list binds a key (the JavaScript `in` operator). -/
def hasKey (fs : List (String × Json)) (k : String) : Bool :=
  (findVal fs k).isSome

/-- JavaScript truthiness of a value. -/
def jsTruthy : Json → Bool
  | .null => false
  | .bool b => b
  | .num n => n != 0
  | .str s => s != ""
  | .arr _ => true
  | .obj _ => true

def Json.isObj : Json → Bool
  | .obj _ => true
  | _ => false

def Json.isArr : Json → Bool
  | .arr _ => true
  | _ => false

/-- Property read on a value: `undefined` (`none`) off objects. -/
def Json.lookup : Json → String → Option Json
  | .obj fs, k => findVal fs k
  | _, _ => none

theorem sizeOf_findVal {fb : List (String × Json)} {k : String} {v : Json}
    (h : findVal fb k = some v) : sizeOf v < sizeOf fb := by
  induction fb with
  | nil => simp [findVal] at h
  | cons kv rest ih =>
    obtain ⟨k1, v1⟩ := kv
    by_cases hk : k1 = k
    · simp only [findVal, if_pos hk] at h
      cases h
      simp only [List.cons.sizeOf_spec, Prod.mk.sizeOf_spec]
      omega
    · simp only [findVal, if_neg hk] at h
      have := ih h
      simp only [List.cons.sizeOf_spec]
      omega

mutual
/-- Modelled from the spec: the deep structural merge from `utils.ts` (a file
    of this repository that is not among the sources): for two objects sharing
    a key the values are merged key-by-key recursively; a key present in only
    one side is preserved; scalar and array leaf values from the later
    argument replace those from the earlier one. -/
def Json.merge : Json → Json → Json
  | .obj fa, .obj fb =>
      .obj (mergeFields fa fb ++ fb.filter (fun kv => !(hasKey fa kv.1)))
  | _, b => b
termination_by a b => sizeOf a + sizeOf b
decreasing_by
  simp only [Json.obj.sizeOf_spec]; omega

/-- One pass over the earlier object, merging in the later object's value at
    each shared key. -/
def mergeFields : List (String × Json) → List (String × Json) → List (String × Json)
  | [], _ => []
  | (k, va) :: rest, fb => (k, mergeValue va (findVal fb k)) :: mergeFields rest fb
termination_by fa fb => sizeOf fa + sizeOf fb
decreasing_by
  · rcases h2 : findVal fb k with _ | v
    · simp only [h2, List.cons.sizeOf_spec, Prod.mk.sizeOf_spec, Option.none.sizeOf_spec]
      omega
    · have := sizeOf_findVal h2
      simp only [h2, List.cons.sizeOf_spec, Prod.mk.sizeOf_spec, Option.some.sizeOf_spec]
      omega
  · simp only [List.cons.sizeOf_spec]; omega

/-- Merge of an earlier value with the later object's binding at the same key,
    when that binding exists. -/
def mergeValue (va : Json) : Option Json → Json
  | some vb => Json.merge va vb
  | none => va
termination_by o => sizeOf va + sizeOf o
decreasing_by
  simp only [Option.some.sizeOf_spec]; omega
end

/- Basic lemmas about field lists. -/

@[simp] theorem findVal_nil (k : String) : findVal [] k = none := rfl

theorem findVal_setKey (fs : List (String × Json)) (k : String) (v : Json) (q : String) :
    findVal (setKey fs k v) q = if k = q then some v else findVal fs q := by
  induction fs with
  | nil =>
    by_cases h : k = q <;> simp [setKey, findVal, h]
  | cons kv rest ih =>
    obtain ⟨k1, v1⟩ := kv
    by_cases h1 : k1 = k
    · subst h1
      by_cases h2 : k1 = q <;> simp [setKey, findVal, h2]
    · by_cases h2 : k1 = q
      · subst h2
        have hkq : ¬ k = k1 := fun h => h1 h.symm
        simp [setKey, findVal, h1, hkq]
      · simp [setKey, findVal, h1, h2, ih]

theorem findVal_setKey_self (fs : List (String × Json)) (k : String) (v : Json) :
    findVal (setKey fs k v) k = some v := by
  simp [findVal_setKey]

theorem findVal_setKey_ne (fs : List (String × Json)) (k : String) (v : Json) (q : String)
    (h : k ≠ q) : findVal (setKey fs k v) q = findVal fs q := by
  simp [findVal_setKey, h]

theorem findVal_eraseKey_self (fs : List (String × Json)) (k : String) :
    findVal (eraseKey fs k) k = none := by
  induction fs with
  | nil => rfl
  | cons kv rest ih =>
    obtain ⟨k1, v1⟩ := kv
    by_cases h : k1 = k
    · simpa [eraseKey, List.filter_cons, h] using ih
    · simpa [eraseKey, List.filter_cons, h, findVal] using ih

theorem findVal_append (l1 l2 : List (String × Json)) (k : String) :
    findVal (l1 ++ l2) k = match findVal l1 k with
      | some v => some v
      | none => findVal l2 k := by
  induction l1 with
  | nil => simp [findVal]
  | cons kv rest ih =>
    obtain ⟨k1, v1⟩ := kv
    by_cases h : k1 = k <;> simp [findVal, h, ih]

theorem findVal_filter_key (fb : List (String × Json)) (q : String → Bool) (k : String) :
    findVal (fb.filter (fun kv => q kv.1)) k =
      if q k then findVal fb k else none := by
  induction fb with
  | nil => simp [findVal]
  | cons kv rest ih =>
    obtain ⟨k1, v1⟩ := kv
    by_cases h : k1 = k
    · subst h
      by_cases hq : q k1 <;> simp [List.filter, hq, findVal, ih]
    · by_cases hq : q k1 <;> simp [List.filter, hq, findVal, h, ih]

theorem findVal_mergeFields (fa fb : List (String × Json)) (k : String) :
    findVal (mergeFields fa fb) k =
      (findVal fa k).map (fun va => mergeValue va (findVal fb k)) := by
  induction fa with
  | nil => simp [mergeFields, findVal]
  | cons kv rest ih =>
    obtain ⟨k1, v1⟩ := kv
    by_cases h : k1 = k
    · subst h
      simp [mergeFields, findVal]
    · simp [mergeFields, findVal, h, ih]

/-- Full characterisation of property lookup in a merge of two objects: shared
    keys are merged recursively, keys present on one side only are preserved. -/
theorem lookup_merge_obj (fa fb : List (String × Json)) (k : String) :
    Json.lookup (Json.merge (.obj fa) (.obj fb)) k =
      match findVal fa k, findVal fb k with
      | some va, some vb => some (Json.merge va vb)
      | some va, none => some va
      | none, some vb => some vb
      | none, none => none := by
  rw [Json.merge]
  show findVal (mergeFields fa fb ++ fb.filter (fun kv => !(hasKey fa kv.1))) k = _
  rw [findVal_append, findVal_mergeFields, findVal_filter_key fb (fun x => !(hasKey fa x)) k]
  rcases ha : findVal fa k with _ | va <;> rcases hb : findVal fb k with _ | vb <;>
    simp [hasKey, ha, hb, mergeValue]

/- The configuration data model, following the shapes consumed by
   DefinitionGenerator.ts (its `types.ts` declarations are not among the
   sources; the field shapes below follow the accesses the generator makes
   and the input description of the spec). `Option` marks a field that may be
   absent (`undefined`). -/

/-- A source-type reference of a model (`tsSchema`). -/
structure TsSchemaRef where
  filePath : String
  typeName : String

/-- A named, reusable schema declaration. -/
structure Model where
  name : String
  schema : Option Json
  tsSchema : Option TsSchemaRef
  examples : Option Json

/-- A named security definition; `rest` holds the scheme-specific fields other
    than `name` and `authorizerName`, in declaration order. -/
structure SecurityDef where
  name : String
  authorizerName : Option String
  rest : List (String × Json)

/-- The caller-supplied definition configuration (`IDefinitionConfig`). -/
structure DefinitionConfig where
  title : Option String
  description : Option String
  version : Option String
  servers : Option Json
  models : Option (List Model)
  security : Option (List SecurityDef)

/-- One entry of a `pathParams` / `queryParams` / `requestHeaders` /
    `cookieParams` block. -/
structure ParameterDoc where
  name : String
  description : Option String
  required : Option Bool
  allowEmptyValue : Option Bool
  allowReserved : Option Bool
  deprecated : Option Bool
  style : Option String
  explode : Option Bool
  schema : Option Json
  examples : Option Json
  content : Option Json

/-- One entry of a `responseHeaders` block. -/
structure HeaderDoc where
  name : String
  description : Option String
  schema : Option Json

/-- One entry of a `methodResponses` block. `responseBody` is `some d` when a
    `responseBody` object is present, where `d` is `some text` exactly when
    that object has a `description` key. Status codes appear as object keys in
    the output, hence strings. -/
structure MethodResponse where
  statusCode : String
  responseBody : Option (Option String)
  responseModels : Option (List (String × String))
  responseHeaders : Option (List HeaderDoc)

/-- The documentation block of one http event. `requestBody` is encoded like
    `MethodResponse.responseBody`; `requestModels` and `responseModels` are
    content-type to model-name maps in key order. -/
structure EventDocumentation where
  operationId : Option String
  summary : Option String
  description : Option String
  tags : Option Json
  deprecated : Option Bool
  pathParams : Option (List ParameterDoc)
  queryParams : Option (List ParameterDoc)
  requestHeaders : Option (List ParameterDoc)
  cookieParams : Option (List ParameterDoc)
  requestBody : Option (Option String)
  requestModels : Option (List (String × String))
  methodResponses : Option (List MethodResponse)
  security : Option (List String)

/-- An event authorizer: a plain name, or an object with an optional `name`. -/
inductive Authorizer where
  | str : String → Authorizer
  | obj : Option String → Authorizer

/-- The `http` / `httpApi` block of an event. -/
structure HttpEventConfig where
  path : String
  method : String
  authorizer : Option Authorizer
  documentation : Option EventDocumentation

/-- One triggering event of a function. -/
structure FunctionEvent where
  http : Option HttpEventConfig
  httpApi : Option HttpEventConfig

/-- One function configuration; `functionName` embeds the source field
    `_functionName`. -/
structure FunctionConfig where
  functionName : String
  events : List FunctionEvent

/-- A raised JavaScript error: either a runtime `TypeError` (reading a
    property of `undefined`) or an explicitly thrown `Error`. -/
inductive JsError where
  | typeError : String → JsError
  | error : String → JsError

/-- Truthiness of an optional string (JavaScript `if (s)`). -/
def strTruthy : Option String → Bool
  | some s => s != ""
  | none => false

/-- Truthiness of an optional value (JavaScript `if (v)`). -/
def jsTruthyOpt : Option Json → Bool
  | some v => jsTruthy v
  | none => false

/-- Truthiness of an authorizer value: a name is falsy when empty, an object
    is always truthy. -/
def authTruthy : Authorizer → Bool
  | .str s => s != ""
  | .obj _ => true

/-- The authorizer name extraction of DefinitionGenerator.ts lines 165-168:
    a string authorizer is its own name, an object authorizer contributes its
    optional name field. -/
def authName : Authorizer → Option String
  | .str s => some s
  | .obj n => n

/-- Embeds `cleanSchema` (DefinitionGenerator.ts lines 114-125): clones the schema
    and strips a truthy `$schema` key. The clone is the identity on pure
    values. -/
def cleanSchema (schema : Json) : Json :=
  match schema with
  | .obj fields =>
    match findVal fields "$schema" with
    | some v => if jsTruthy v then Json.obj (eraseKey fields "$schema") else Json.obj fields
    | none => Json.obj fields
  | other => other

/-- External collaborator (spec section 6): the $ref dereferencer, contract
    `(schema) -> schema with internal refs inlined`. Modelled as the identity,
    which is exact for schemas without internal refs. -/
def dereference (schema : Json) : Json := schema

/-- Embeds `attachExamples` (lines 303-307): merges an `examples` fragment
    into the config when the model declares truthy examples. -/
def attachExamples (target : Model) (config : Json) : Json :=
  match target.examples with
  | some ex => if jsTruthy ex then Json.merge config (Json.obj [("examples", ex)]) else config
  | none => config

/-- Lines 209-214: the base fields of an emitted parameter; `description`
    defaults to the empty string, `required` to false. -/
def paramBaseFields (type : String) (parameter : ParameterDoc) : List (String × Json) :=
  [("name", Json.str parameter.name),
   ("in", Json.str type),
   ("description", Json.str (parameter.description.getD "")),
   ("required", Json.bool (parameter.required == some true))]

/-- Lines 216-225: `required` is forced for path parameters; query parameters
    get `allowEmptyValue` and, when declared, `allowReserved`. -/
def paramLocationFields (type : String) (parameter : ParameterDoc)
    (fs : List (String × Json)) : List (String × Json) :=
  if type == "path" then setKey fs "required" (Json.bool true)
  else if type == "query" then
    let fs := setKey fs "allowEmptyValue" (Json.bool (parameter.allowEmptyValue == some true))
    match parameter.allowReserved with
    | some b => setKey fs "allowReserved" (Json.bool b)
    | none => fs
  else fs

/-- Lines 227-229. -/
def paramDeprecatedField (parameter : ParameterDoc)
    (fs : List (String × Json)) : List (String × Json) :=
  match parameter.deprecated with
  | some b => setKey fs "deprecated" (Json.bool b)
  | none => fs

/-- Lines 231-235: `style` is carried through; `explode` comes from the input
    only when truthy, else from `style === 'form'`. -/
def paramStyleFields (parameter : ParameterDoc)
    (fs : List (String × Json)) : List (String × Json) :=
  match parameter.style with
  | some style =>
      setKey (setKey fs "style" (Json.str style)) "explode"
        (Json.bool (if parameter.explode == some true then true else style == "form"))
  | none => fs

/-- Lines 237-239. -/
def paramSchemaField (parameter : ParameterDoc)
    (fs : List (String × Json)) : List (String × Json) :=
  match parameter.schema with
  | some s => if jsTruthy s then setKey fs "schema" (cleanSchema s) else fs
  | none => fs

/-- Lines 241-243. -/
def paramExamplesField (parameter : ParameterDoc)
    (fs : List (String × Json)) : List (String × Json) :=
  match parameter.examples with
  | some ex => if jsTruthy ex && Json.isArr ex then setKey fs "examples" ex else fs
  | none => fs

/-- Lines 245-247. -/
def paramContentField (parameter : ParameterDoc)
    (fs : List (String × Json)) : List (String × Json) :=
  match parameter.content with
  | some c => if jsTruthy c then setKey fs "content" c else fs
  | none => fs

/-- The loop body of `getParametersFromConfig` (lines 208-250): builds one
    emitted parameter object from one declared parameter of the given
    location. -/
def buildParam (type : String) (parameter : ParameterDoc) : Json :=
  Json.obj (paramContentField parameter
    (paramExamplesField parameter
      (paramSchemaField parameter
        (paramStyleFields parameter
          (paramDeprecatedField parameter
            (paramLocationFields type parameter (paramBaseFields type parameter)))))))

/-- One location block of `getParametersFromConfig`: absent blocks contribute
    nothing. -/
def paramsOfBlock (type : String) (block : Option (List ParameterDoc)) : List Json :=
  match block with
  | some params => params.map (buildParam type)
  | none => []

/-- Embeds `getParametersFromConfig` (lines 189-254): path, query, header and cookie
    blocks in that order, declaration order within each. -/
def getParametersFromConfig (documentationConfig : EventDocumentation) : List Json :=
  paramsOfBlock "path" documentationConfig.pathParams ++
  paramsOfBlock "query" documentationConfig.queryParams ++
  paramsOfBlock "header" documentationConfig.requestHeaders ++
  paramsOfBlock "cookie" documentationConfig.cookieParams

/-- Embeds `getRequestBodiesFromConfig` (lines 260-301): throws when `requestModels`
    is absent; otherwise, for each content-type key, `filter(...).pop()` takes
    the last model of that name (TypeError when `config.models` is
    `undefined`), wires a schema $ref, attaches examples, optionally a
    `description` from `requestBody`, and deep-merges the fragment. The
    thrown message interpolates the documentation block; the constant prefix
    stands for it here. -/
def getRequestBodiesFromConfig (cfg : DefinitionConfig)
    (documentationConfig : EventDocumentation) : Except JsError Json :=
  match documentationConfig.requestModels with
  | none => .error (.error "Required requestModels in")
  | some requestModels =>
    requestModels.foldlM (fun requestBodies kv =>
      match cfg.models with
      | none => .error (.typeError "cannot read filter of undefined")
      | some models =>
        match (models.filter (fun m => m.name == kv.2)).getLast? with
        | some requestModel =>
          let reqModelConfig : Json :=
            .obj [("schema", .obj [("$ref", .str ("#/components/schemas/" ++ kv.2))])]
          let reqModelConfig := attachExamples requestModel reqModelConfig
          let reqBodyConfig : Json := .obj [("content", .obj [(kv.1, reqModelConfig)])]
          let reqBodyConfig :=
            match documentationConfig.requestBody with
            | some (some d) =>
                match reqBodyConfig with
                | .obj fs => Json.obj (setKey fs "description" (.str d))
                | other => other
            | _ => reqBodyConfig
          .ok (Json.merge requestBodies reqBodyConfig)
        | none => .ok requestBodies) (Json.obj [])

/-- The loop body of `getResponseContent` (lines 349-363) for one content
    type. -/
def getResponseContentStep (cfg : DefinitionConfig) (content : Json)
    (kv : String × String) : Except JsError Json :=
  match cfg.models with
  | none => .error (.typeError "cannot read find of undefined")
  | some models =>
    match models.find? (fun m => m.name == kv.2) with
    | some responseModel =>
      let resModelConfig : Json :=
        .obj [("schema", .obj [("$ref", .str ("#/components/schemas/" ++ kv.2))])]
      let resModelConfig := attachExamples responseModel resModelConfig
      .ok (Json.merge content (Json.obj [(kv.1, resModelConfig)]))
    | none => .ok content

/-- Embeds `getResponseContent` (lines 346-366): `Object.keys` of an `undefined`
    map throws; otherwise each content type whose model name resolves (first
    match, `find`) contributes a $ref fragment, and unresolved names
    contribute nothing. -/
def getResponseContent (cfg : DefinitionConfig)
    (response : Option (List (String × String))) : Except JsError Json :=
  match response with
  | none => .error (.typeError "cannot convert undefined to object")
  | some pairs => pairs.foldlM (getResponseContentStep cfg) (Json.obj [])

/-- The `responseHeaders` loop of `getResponsesFromConfig` (lines 325-335). -/
def buildHeaders (headers : List HeaderDoc) : Json :=
  headers.foldl (fun acc header =>
    let entry : List (String × Json) :=
      [("description", Json.str
          (match header.description with
           | some d => if d == "" then header.name ++ " header" else d
           | none => header.name ++ " header"))]
    let entry :=
      match header.schema with
      | some s => if jsTruthy s then setKey entry "schema" (cleanSchema s) else entry
      | none => entry
    match acc with
    | .obj fs => Json.obj (setKey fs header.name (.obj entry))
    | other => other) (Json.obj [])

/-- Embeds `getResponsesFromConfig` (lines 313-344). -/
def getResponsesFromConfig (cfg : DefinitionConfig)
    (documentationConfig : EventDocumentation) : Except JsError Json :=
  match documentationConfig.methodResponses with
  | none => .ok (Json.obj [])
  | some methodResponses =>
    methodResponses.foldlM (fun responses response =>
      match getResponseContent cfg response.responseModels with
      | .error e => .error e
      | .ok content =>
        let fs : List (String × Json) :=
          [("description", Json.str
              (match response.responseBody with
               | some (some d) => d
               | _ => "Status " ++ response.statusCode ++ " Response")),
           ("content", content)]
        let fs :=
          match response.responseHeaders with
          | some headers => setKey fs "headers" (buildHeaders headers)
          | none => fs
        .ok (Json.merge responses (Json.obj [(response.statusCode, .obj fs)])))
      (Json.obj [])

/-- Lines 140-142 of `getOperationFromConfig`. -/
def opSummaryField (documentationConfig : EventDocumentation)
    (fs : List (String × Json)) : List (String × Json) :=
  match documentationConfig.summary with
  | some s => if s == "" then fs else setKey fs "summary" (Json.str s)
  | none => fs

/-- Lines 144-146. -/
def opDescriptionField (documentationConfig : EventDocumentation)
    (fs : List (String × Json)) : List (String × Json) :=
  match documentationConfig.description with
  | some s => if s == "" then fs else setKey fs "description" (Json.str s)
  | none => fs

/-- Lines 148-150. -/
def opTagsField (documentationConfig : EventDocumentation)
    (fs : List (String × Json)) : List (String × Json) :=
  match documentationConfig.tags with
  | some t => if jsTruthy t then setKey fs "tags" t else fs
  | none => fs

/-- Lines 152-154. -/
def opDeprecatedField (documentationConfig : EventDocumentation)
    (fs : List (String × Json)) : List (String × Json) :=
  if documentationConfig.deprecated == some true
  then setKey fs "deprecated" (Json.bool true) else fs

/-- Lines 156-158: the request body is built (and the builder is invoked at
    all) only when `requestModels` is present. -/
def opRequestBodyField (cfg : DefinitionConfig) (documentationConfig : EventDocumentation)
    (fs : List (String × Json)) : Except JsError (List (String × Json)) :=
  match documentationConfig.requestModels with
  | some _ => (getRequestBodiesFromConfig cfg documentationConfig).map
      (fun rb => setKey fs "requestBody" rb)
  | none => Except.ok fs

/-- Lines 136-162 of `getOperationFromConfig`: the operation object up to and
    including `responses`, before security resolution. -/
def baseOperationFields (cfg : DefinitionConfig) (funcName : String)
    (documentationConfig : EventDocumentation) : Except JsError (List (String × Json)) :=
  let fs : List (String × Json) := [("operationId", Json.str funcName)]
  let fs := opSummaryField documentationConfig fs
  let fs := opDescriptionField documentationConfig fs
  let fs := opTagsField documentationConfig fs
  let fs := opDeprecatedField documentationConfig fs
  match opRequestBodyField cfg documentationConfig fs with
  | .error e => .error e
  | .ok fs =>
    let fs := setKey fs "parameters" (Json.arr (getParametersFromConfig documentationConfig))
    match getResponsesFromConfig cfg documentationConfig with
    | .error e => .error e
    | .ok responses => .ok (setKey fs "responses" responses)

/-- Lines 164-173 of `getOperationFromConfig`: the authorizer-derived security
    requirement. -/
def applyAuthorizerSecurity (cfg : DefinitionConfig) (authorizer : Option Authorizer)
    (fs : List (String × Json)) : List (String × Json) :=
  match authorizer, cfg.security with
  | some a, some secList =>
    if authTruthy a then
      match secList.find? (fun s => s.authorizerName == authName a) with
      | some security =>
          setKey fs "security" (Json.arr [Json.obj [(security.name, Json.arr [])]])
      | none => fs
    else fs
  | _, _ => fs

/-- Lines 175-180 of `getOperationFromConfig`: the documentation-declared
    security list; `this.config.security.filter` throws when the
    configuration declares no security definitions. -/
def applyDocSecurity (cfg : DefinitionConfig) (documentationConfig : EventDocumentation)
    (fs : List (String × Json)) : Except JsError (List (String × Json)) :=
  match documentationConfig.security with
  | none => .ok fs
  | some names =>
    match cfg.security with
    | none => .error (.typeError "cannot read filter of undefined")
    | some secList =>
      let securities := secList.filter (fun s => names.contains s.name)
      .ok (if securities.length > 0
           then setKey fs "security"
             (Json.arr (securities.map (fun s => Json.obj [(s.name, Json.arr [])])))
           else fs)

/-- Embeds `getOperationFromConfig` (lines 134-183). -/
def getOperationFromConfig (cfg : DefinitionConfig) (funcName : String)
    (config : HttpEventConfig) : Except JsError Json :=
  match config.documentation with
  | none => .error (.typeError "cannot read properties of undefined")
  | some documentationConfig =>
    match baseOperationFields cfg funcName documentationConfig with
    | .error e => .error e
    | .ok fs =>
      let fs := applyAuthorizerSecurity cfg config.authorizer fs
      match applyDocSecurity cfg documentationConfig fs with
      | .error e => .error e
      | .ok fs => .ok (Json.obj fs)

/-- Line 93 of `readFunctions`: a path key not starting with `/` gets exactly
    one `/` prepended. `startsWith` is prefix comparison on the characters. -/
def jsStartsWith (s pre : String) : Bool :=
  pre.data.isPrefixOf s.data

def normalizePath (p : String) : String :=
  if jsStartsWith p "/" then p else "/" ++ p

/-- JavaScript `toLowerCase`, character-wise. -/
def jsToLowerCase (s : String) : String :=
  String.mk (s.data.map Char.toLower)

/-- Embeds `getHttpEvents` (lines 368-370). -/
def getHttpEvents (events : List FunctionEvent) : List FunctionEvent :=
  events.filter (fun e => e.http.isSome || e.httpApi.isSome)

/-- The loop body of `readFunctions` (lines 88-106) for one http event:
    builds the single-entry path fragment and deep-merges it into the
    accumulated paths. -/
def readFunctionsEvent (cfg : DefinitionConfig) (funcName : String) (paths : Json)
    (httpEvent : FunctionEvent) : Except JsError Json :=
  match httpEvent.http <|> httpEvent.httpApi with
  | none => .ok paths
  | some httpEventConfig =>
    match httpEventConfig.documentation with
    | none => .ok paths
    | some documentation =>
      match getOperationFromConfig cfg (documentation.operationId.getD funcName)
          httpEventConfig with
      | .error e => .error e
      | .ok op => .ok (Json.merge paths
          (Json.obj [(normalizePath httpEventConfig.path,
                      Json.obj [(jsToLowerCase httpEventConfig.method, op)])]))

/-- Embeds `readFunctions` (lines 84-108), accumulating into the given paths tree
    (the generator starts from the empty `paths` seeded by `parse`). -/
def readFunctions (cfg : DefinitionConfig) (paths0 : Json)
    (config : List FunctionConfig) : Except JsError Json :=
  config.foldlM (fun paths funcConfig =>
    (getHttpEvents funcConfig.events).foldlM
      (readFunctionsEvent cfg funcConfig.functionName) paths) paths0

/-- The security-scheme registry built by `parse` (lines 49-56): each
    definition keyed by name, `authorizerName` stripped. -/
def securitySchemesOf (security : List SecurityDef) : List (String × Json) :=
  security.foldl (fun result s =>
    setKey result s.name (Json.obj (("name", Json.str s.name) :: s.rest))) []

/-- The base definition object of the generator (lines 24-27). -/
def initialDefinition : Json :=
  Json.obj [("openapi", Json.str "3.0.0"), ("components", Json.obj [])]

/-- The assignment `this.definition.components.schemas[name] = schema` of line 73. -/
def setSchemaEntry (definition : Json) (name : String) (schema : Json) : Json :=
  match definition with
  | .obj dfs =>
    match findVal dfs "components" with
    | some (.obj cfs) =>
      match findVal cfs "schemas" with
      | some (.obj sfs) =>
          .obj (setKey dfs "components"
            (.obj (setKey cfs "schemas" (.obj (setKey sfs name schema)))))
      | _ => definition
    | _ => definition
  | _ => definition

/-- Embeds `parse` (lines 39-78). `deriveSchema` stands for the external
    type-to-schema deriver (spec section 6) applied to a `tsSchema`
    reference, and `uuidV4` for the generated version fallback; both are
    external collaborators. The in-place rewriting of `model.tsSchema` into
    `model.schema` is invisible downstream, which only reads model names, so
    the configuration is not threaded back. -/
def parse (deriveSchema : TsSchemaRef → Json) (uuidV4 : String)
    (cfg : DefinitionConfig) : Json :=
  let d := Json.merge initialDefinition (Json.obj
    [("openapi", Json.str "3.0.0"),
     ("info", Json.obj
       [("title", Json.str (cfg.title.getD "")),
        ("description", Json.str (cfg.description.getD "")),
        ("version", Json.str (cfg.version.getD uuidV4))]),
     ("servers", cfg.servers.getD (Json.arr [])),
     ("paths", Json.obj []),
     ("components", Json.obj
       [("schemas", Json.obj []),
        ("securitySchemes", Json.obj (securitySchemesOf (cfg.security.getD [])))])])
  match cfg.models with
  | none => d
  | some models =>
    models.foldl (fun d model =>
      if !(jsTruthyOpt model.schema) && model.tsSchema.isNone then d
      else
        let schema :=
          match model.tsSchema with
          | some ts => deriveSchema ts
          | none => model.schema.getD Json.null
        setSchemaEntry d model.name (cleanSchema (dereference schema))) d

/-- Chained lookup of a registered schema in a definition object. -/
def schemaEntry (definition : Json) (name : String) : Option Json :=
  (definition.lookup "components").bind
    (fun c => (c.lookup "schemas").bind (fun s => s.lookup name))

/- Preservation lemmas: each field step only touches its own keys. -/

theorem findVal_paramLocationFields (type : String) (p : ParameterDoc)
    (fs : List (String × Json)) (q : String)
    (h1 : "required" ≠ q) (h2 : "allowEmptyValue" ≠ q) (h3 : "allowReserved" ≠ q) :
    findVal (paramLocationFields type p fs) q = findVal fs q := by
  unfold paramLocationFields
  repeat' split
  all_goals simp [findVal_setKey, h1, h2, h3]

theorem findVal_paramDeprecatedField (p : ParameterDoc) (fs : List (String × Json))
    (q : String) (h : "deprecated" ≠ q) :
    findVal (paramDeprecatedField p fs) q = findVal fs q := by
  unfold paramDeprecatedField
  repeat' split
  all_goals simp [findVal_setKey, h]

theorem findVal_paramStyleFields (p : ParameterDoc) (fs : List (String × Json))
    (q : String) (h1 : "style" ≠ q) (h2 : "explode" ≠ q) :
    findVal (paramStyleFields p fs) q = findVal fs q := by
  unfold paramStyleFields
  repeat' split
  all_goals simp [findVal_setKey, h1, h2]

theorem findVal_paramSchemaField (p : ParameterDoc) (fs : List (String × Json))
    (q : String) (h : "schema" ≠ q) :
    findVal (paramSchemaField p fs) q = findVal fs q := by
  unfold paramSchemaField
  repeat' split
  all_goals simp [findVal_setKey, h]

theorem findVal_paramExamplesField (p : ParameterDoc) (fs : List (String × Json))
    (q : String) (h : "examples" ≠ q) :
    findVal (paramExamplesField p fs) q = findVal fs q := by
  unfold paramExamplesField
  repeat' split
  all_goals simp [findVal_setKey, h]

theorem findVal_paramContentField (p : ParameterDoc) (fs : List (String × Json))
    (q : String) (h : "content" ≠ q) :
    findVal (paramContentField p fs) q = findVal fs q := by
  unfold paramContentField
  repeat' split
  all_goals simp [findVal_setKey, h]

/-- The emitted `in` location of a built parameter is its block's type. -/
theorem lookup_buildParam_in (type : String) (p : ParameterDoc) :
    (buildParam type p).lookup "in" = some (Json.str type) := by
  simp [buildParam, Json.lookup, findVal_paramContentField, findVal_paramExamplesField,
    findVal_paramSchemaField, findVal_paramStyleFields, findVal_paramDeprecatedField,
    findVal_paramLocationFields, paramBaseFields, findVal]

/-- A parameter built for the `path` location carries `required = true`. -/
theorem lookup_buildParam_required_path (p : ParameterDoc) :
    (buildParam "path" p).lookup "required" = some (Json.bool true) := by
  simp [buildParam, Json.lookup, findVal_paramContentField, findVal_paramExamplesField,
    findVal_paramSchemaField, findVal_paramStyleFields, findVal_paramDeprecatedField,
    paramLocationFields, findVal_setKey]

/-- When the input declares a `style`, the built parameter carries it and
    computes `explode` as the code does. -/
theorem lookup_buildParam_style (type : String) (p : ParameterDoc) (style : String)
    (h : p.style = some style) :
    (buildParam type p).lookup "style" = some (Json.str style) ∧
    (buildParam type p).lookup "explode" =
      some (Json.bool (if p.explode == some true then true else style == "form")) := by
  constructor <;>
    simp [buildParam, Json.lookup, findVal_paramContentField, findVal_paramExamplesField,
      findVal_paramSchemaField, paramStyleFields, h, findVal_setKey]

/-- Membership in one location block comes from building some declared
    parameter. -/
theorem mem_paramsOfBlock (type : String) (block : Option (List ParameterDoc)) (j : Json)
    (h : j ∈ paramsOfBlock type block) : ∃ p, j = buildParam type p := by
  cases block with
  | none => simp [paramsOfBlock] at h
  | some params =>
    simp only [paramsOfBlock, List.mem_map] at h
    obtain ⟨p, _, hp⟩ := h
    exact ⟨p, hp.symm⟩

/-- C2 counterexample: a query parameter declared with `style: 'form'` and an
    explicit `explode: false` is emitted with `explode: true` — the explicit
    false is not preserved, refuting the claim that the emitted `explode`
    equals the input's `explode` whenever the input gives one. -/
theorem c2_counterexample :
    (⟨"filter", none, none, none, none, none, some "form", some false, none, none,
      none⟩ : ParameterDoc).explode = some false ∧
    (buildParam "query"
      ⟨"filter", none, none, none, none, none, some "form", some false, none, none,
       none⟩).lookup "explode" = some (Json.bool true) := by
  refine ⟨rfl, ?_⟩
  simp [buildParam, Json.lookup, paramContentField, paramExamplesField, paramSchemaField,
    paramStyleFields, paramDeprecatedField, paramLocationFields, paramBaseFields,
    setKey, findVal]

/-- C2 (amended): for every parameter declaration that specifies `style`, the
    emitted parameter carries that style, and its `explode` is the input's
    `explode` when that value is `true`; otherwise — the input's `explode`
    absent or `false` — it is `true` exactly when `style === 'form'` and
    `false` for any other style. (An explicit `explode: false` is preserved
    only when the style is not `'form'`.) -/
theorem c2_explode_amended (type : String) (p : ParameterDoc) (style : String)
    (h : p.style = some style) :
    (buildParam type p).lookup "style" = some (Json.str style) ∧
    (buildParam type p).lookup "explode" =
      some (Json.bool ((p.explode == some true) || (style == "form"))) := by
  obtain ⟨h1, h2⟩ := lookup_buildParam_style type p style h
  refine ⟨h1, ?_⟩
  rw [h2]
  cases he : p.explode == some true <;> simp [he]

/-- C2 witness: a query parameter with `style: 'form'` and no explicit
    `explode` is emitted with `explode: true`. -/
theorem c2_witness :
    (buildParam "query"
      (⟨"filter", none, none, none, none, none, some "form", none, none, none,
        none⟩ : ParameterDoc)).lookup "style" = some (Json.str "form") ∧
    (buildParam "query"
      (⟨"filter", none, none, none, none, none, some "form", none, none, none,
        none⟩ : ParameterDoc)).lookup "explode" = some (Json.bool true) :=
  c2_explode_amended "query"
    ⟨"filter", none, none, none, none, none, some "form", none, none, none, none⟩
    "form" rfl

/-- C5: every parameter the generator emits for the `path` location has
    `required = true`, whatever the declared `required` flag was. -/
theorem c5_path_params_required (d : EventDocumentation) (j : Json)
    (hj : j ∈ getParametersFromConfig d)
    (hin : j.lookup "in" = some (Json.str "path")) :
    j.lookup "required" = some (Json.bool true) := by
  have hblock : ∃ type p, j = buildParam type p ∧
      (type = "path" ∨ type = "query" ∨ type = "header" ∨ type = "cookie") := by
    simp only [getParametersFromConfig, List.mem_append] at hj
    rcases hj with ((h | h) | h) | h
    · obtain ⟨p, hp⟩ := mem_paramsOfBlock _ _ _ h
      exact ⟨"path", p, hp, Or.inl rfl⟩
    · obtain ⟨p, hp⟩ := mem_paramsOfBlock _ _ _ h
      exact ⟨"query", p, hp, Or.inr (Or.inl rfl)⟩
    · obtain ⟨p, hp⟩ := mem_paramsOfBlock _ _ _ h
      exact ⟨"header", p, hp, Or.inr (Or.inr (Or.inl rfl))⟩
    · obtain ⟨p, hp⟩ := mem_paramsOfBlock _ _ _ h
      exact ⟨"cookie", p, hp, Or.inr (Or.inr (Or.inr rfl))⟩
  obtain ⟨type, p, hjp, htype⟩ := hblock
  subst hjp
  have hin2 := lookup_buildParam_in type p
  rw [hin] at hin2
  have htp : type = "path" := by
    cases hin2
    rfl
  subst htp
  exact lookup_buildParam_required_path p

/-- C5 witness: a path parameter declared with `required: false` is still
    emitted with `required: true`. -/
theorem c5_witness :
    (buildParam "path"
      (⟨"id", none, some false, none, none, none, none, none, none, none,
        none⟩ : ParameterDoc)).lookup "required" = some (Json.bool true) :=
  c5_path_params_required
    ⟨none, none, none, none, none,
     some [⟨"id", none, some false, none, none, none, none, none, none, none, none⟩],
     none, none, none, none, none, none, none⟩
    (buildParam "path"
      ⟨"id", none, some false, none, none, none, none, none, none, none, none⟩)
    (by simp [getParametersFromConfig, paramsOfBlock])
    (lookup_buildParam_in "path" _)

/- Preservation and error-shape lemmas for the operation builder. -/

theorem findVal_opSummaryField (d : EventDocumentation) (fs : List (String × Json))
    (q : String) (h : "summary" ≠ q) :
    findVal (opSummaryField d fs) q = findVal fs q := by
  unfold opSummaryField
  repeat' split
  all_goals simp [findVal_setKey, h]

theorem findVal_opDescriptionField (d : EventDocumentation) (fs : List (String × Json))
    (q : String) (h : "description" ≠ q) :
    findVal (opDescriptionField d fs) q = findVal fs q := by
  unfold opDescriptionField
  repeat' split
  all_goals simp [findVal_setKey, h]

theorem findVal_opTagsField (d : EventDocumentation) (fs : List (String × Json))
    (q : String) (h : "tags" ≠ q) :
    findVal (opTagsField d fs) q = findVal fs q := by
  unfold opTagsField
  repeat' split
  all_goals simp [findVal_setKey, h]

theorem findVal_opDeprecatedField (d : EventDocumentation) (fs : List (String × Json))
    (q : String) (h : "deprecated" ≠ q) :
    findVal (opDeprecatedField d fs) q = findVal fs q := by
  unfold opDeprecatedField
  repeat' split
  all_goals simp [findVal_setKey, h]

theorem findVal_opRequestBodyField_ok (cfg : DefinitionConfig) (d : EventDocumentation)
    (fs fs2 : List (String × Json)) (q : String)
    (h : opRequestBodyField cfg d fs = .ok fs2) (hq : "requestBody" ≠ q) :
    findVal fs2 q = findVal fs q := by
  unfold opRequestBodyField at h
  cases hrm : d.requestModels with
  | none =>
    rw [hrm] at h
    cases h
    rfl
  | some rm =>
    rw [hrm] at h
    cases hrb : getRequestBodiesFromConfig cfg d with
    | error e => rw [hrb] at h; cases h
    | ok rb =>
      rw [hrb] at h
      cases h
      simp [findVal_setKey, hq]

/-- When `requestModels` is absent, lines 156-158 do nothing: the request-body
    builder is never invoked. -/
theorem opRequestBodyField_none (cfg : DefinitionConfig) (d : EventDocumentation)
    (fs : List (String × Json)) (h : d.requestModels = none) :
    opRequestBodyField cfg d fs = .ok fs := by
  simp [opRequestBodyField, h]

/-- A successful base operation object has no `security` key, and no
    `requestBody` key when `requestModels` was absent. -/
theorem findVal_baseOperationFields (cfg : DefinitionConfig) (funcName : String)
    (d : EventDocumentation) (fs : List (String × Json))
    (h : baseOperationFields cfg funcName d = .ok fs) :
    findVal fs "security" = none ∧
    (d.requestModels = none → findVal fs "requestBody" = none) := by
  unfold baseOperationFields at h
  dsimp only at h
  cases hrb : opRequestBodyField cfg d
      (opDeprecatedField d (opTagsField d (opDescriptionField d
        (opSummaryField d [("operationId", Json.str funcName)])))) with
  | error e => rw [hrb] at h; cases h
  | ok fs1 =>
    rw [hrb] at h
    cases hrsp : getResponsesFromConfig cfg d with
    | error e => simp only [hrsp] at h; cases h
    | ok responses =>
      simp only [hrsp] at h
      cases h
      constructor
      · rw [findVal_setKey_ne _ _ _ _ (by simp), findVal_setKey_ne _ _ _ _ (by simp),
          findVal_opRequestBodyField_ok _ _ _ _ _ hrb (by simp),
          findVal_opDeprecatedField _ _ _ (by simp), findVal_opTagsField _ _ _ (by simp),
          findVal_opDescriptionField _ _ _ (by simp), findVal_opSummaryField _ _ _ (by simp)]
        simp [findVal]
      · intro hrm
        rw [findVal_setKey_ne _ _ _ _ (by simp), findVal_setKey_ne _ _ _ _ (by simp)]
        rw [opRequestBodyField_none _ _ _ hrm] at hrb
        cases hrb
        rw [findVal_opDeprecatedField _ _ _ (by simp), findVal_opTagsField _ _ _ (by simp),
          findVal_opDescriptionField _ _ _ (by simp), findVal_opSummaryField _ _ _ (by simp)]
        simp [findVal]

theorem findVal_applyAuthorizerSecurity (cfg : DefinitionConfig) (auth : Option Authorizer)
    (fs : List (String × Json)) (q : String) (h : "security" ≠ q) :
    findVal (applyAuthorizerSecurity cfg auth fs) q = findVal fs q := by
  unfold applyAuthorizerSecurity
  repeat' split
  all_goals simp [findVal_setKey, h]

theorem findVal_applyDocSecurity_ok (cfg : DefinitionConfig) (d : EventDocumentation)
    (fs fs2 : List (String × Json)) (q : String)
    (h : applyDocSecurity cfg d fs = .ok fs2) (hq : "security" ≠ q) :
    findVal fs2 q = findVal fs q := by
  unfold applyDocSecurity at h
  cases hds : d.security with
  | none => rw [hds] at h; cases h; rfl
  | some names =>
    rw [hds] at h
    cases hcs : cfg.security with
    | none => rw [hcs] at h; cases h
    | some secList =>
      rw [hcs] at h
      cases h
      split
      · simp [findVal_setKey, hq]
      · rfl

theorem applyDocSecurity_error (cfg : DefinitionConfig) (d : EventDocumentation)
    (fs : List (String × Json)) (e : JsError)
    (h : applyDocSecurity cfg d fs = .error e) : ∃ m, e = JsError.typeError m := by
  unfold applyDocSecurity at h
  cases hds : d.security with
  | none => rw [hds] at h; cases h
  | some names =>
    rw [hds] at h
    cases hcs : cfg.security with
    | none => rw [hcs] at h; cases h; exact ⟨_, rfl⟩
    | some secList => rw [hcs] at h; cases h


/-- A fold of steps that can only raise TypeErrors can only raise a
    TypeError. -/
theorem foldlM_typeError {α β : Type} (step : β → α → Except JsError β)
    (hstep : ∀ b a e, step b a = .error e → ∃ m, e = JsError.typeError m)
    (l : List α) :
    ∀ (acc : β) (e : JsError), l.foldlM step acc = .error e →
      ∃ m, e = JsError.typeError m := by
  induction l with
  | nil =>
    intro acc e h
    have h2 : (Except.ok acc : Except JsError β) = Except.error e := h
    cases h2
  | cons a rest ih =>
    intro acc e h
    rw [List.foldlM_cons] at h
    cases hs : step acc a with
    | error e0 =>
      rw [hs] at h
      have h2 : (Except.error e0 : Except JsError β) = Except.error e := h
      cases h2
      exact hstep acc a _ hs
    | ok acc2 =>
      rw [hs] at h
      have h2 : rest.foldlM step acc2 = Except.error e := h
      exact ih acc2 e h2

theorem getResponseContent_error (cfg : DefinitionConfig)
    (r : Option (List (String × String))) (e : JsError)
    (h : getResponseContent cfg r = .error e) : ∃ m, e = JsError.typeError m := by
  cases r with
  | none => cases h; exact ⟨_, rfl⟩
  | some pairs =>
    refine foldlM_typeError _ ?_ pairs _ e h
    intro b a e2 hstep
    unfold getResponseContentStep at hstep
    split at hstep
    · cases hstep; exact ⟨_, rfl⟩
    · split at hstep
      · cases hstep
      · cases hstep

theorem getResponsesFromConfig_error (cfg : DefinitionConfig) (d : EventDocumentation)
    (e : JsError) (h : getResponsesFromConfig cfg d = .error e) :
    ∃ m, e = JsError.typeError m := by
  unfold getResponsesFromConfig at h
  cases hmr : d.methodResponses with
  | none => rw [hmr] at h; cases h
  | some mrs =>
    rw [hmr] at h
    refine foldlM_typeError _ ?_ mrs _ e h
    intro b a e2 hstep
    dsimp only at hstep
    split at hstep
    · cases hstep
      rename_i e3 hrc
      exact getResponseContent_error _ _ _ hrc
    · cases hstep

/-- With `requestModels` absent the base operation can fail only with a
    TypeError (from the response builder), never with the thrown Error. -/
theorem baseOperationFields_error (cfg : DefinitionConfig) (funcName : String)
    (d : EventDocumentation) (e : JsError)
    (hrm : d.requestModels = none)
    (h : baseOperationFields cfg funcName d = .error e) :
    ∃ m, e = JsError.typeError m := by
  unfold baseOperationFields at h
  dsimp only at h
  rw [opRequestBodyField_none _ _ _ hrm] at h
  cases hrsp : getResponsesFromConfig cfg d with
  | error e2 =>
    simp only [hrsp] at h
    cases h
    exact getResponsesFromConfig_error _ _ _ hrsp
  | ok responses =>
    simp only [hrsp] at h
    cases h

/-- Unfolding equation for `getOperationFromConfig` when documentation is
    present. -/
theorem getOperationFromConfig_eq (cfg : DefinitionConfig) (funcName : String)
    (config : HttpEventConfig) (d : EventDocumentation)
    (hd : config.documentation = some d) :
    getOperationFromConfig cfg funcName config =
      match baseOperationFields cfg funcName d with
      | .error e => .error e
      | .ok fs =>
        match applyDocSecurity cfg d (applyAuthorizerSecurity cfg config.authorizer fs) with
        | .error e => .error e
        | .ok fs2 => .ok (Json.obj fs2) := by
  unfold getOperationFromConfig
  rw [hd]

/-- C1 (amended): when a documentation block has `requestBody` but no
    `requestModels`, generation does NOT raise the fatal requestModels error:
    `getRequestBodiesFromConfig` (whose line 264 would throw) is only invoked
    behind the line 156 guard `if (documentationConfig.requestModels)`, so the
    operation is produced without a `requestBody` field (any remaining failure
    can only be an unrelated TypeError). -/
theorem c1_no_fatal_without_requestModels
    (cfg : DefinitionConfig) (funcName : String) (config : HttpEventConfig)
    (d : EventDocumentation)
    (hd : config.documentation = some d)
    (hrm : d.requestModels = none) :
    (∀ msg, getOperationFromConfig cfg funcName config ≠
       Except.error (JsError.error msg)) ∧
    (∀ o, getOperationFromConfig cfg funcName config = Except.ok o →
       o.lookup "requestBody" = none) := by
  have heq := getOperationFromConfig_eq cfg funcName config d hd
  cases hb : baseOperationFields cfg funcName d with
  | error e =>
    rw [hb] at heq
    have heq2 : getOperationFromConfig cfg funcName config = Except.error e := heq
    obtain ⟨m, hm⟩ := baseOperationFields_error cfg funcName d e hrm hb
    subst hm
    constructor
    · intro msg hcontra
      rw [heq2] at hcontra
      cases hcontra
    · intro o ho
      rw [heq2] at ho
      cases ho
  | ok fs =>
    rw [hb] at heq
    have heq2 : getOperationFromConfig cfg funcName config =
        match applyDocSecurity cfg d (applyAuthorizerSecurity cfg config.authorizer fs) with
        | .error e => .error e
        | .ok fs2 => .ok (Json.obj fs2) := heq
    cases hds : applyDocSecurity cfg d (applyAuthorizerSecurity cfg config.authorizer fs) with
    | error e2 =>
      rw [hds] at heq2
      have heq3 : getOperationFromConfig cfg funcName config = Except.error e2 := heq2
      obtain ⟨m, hm⟩ := applyDocSecurity_error _ _ _ _ hds
      subst hm
      constructor
      · intro msg hcontra
        rw [heq3] at hcontra
        cases hcontra
      · intro o ho
        rw [heq3] at ho
        cases ho
    | ok fs2 =>
      rw [hds] at heq2
      have heq3 : getOperationFromConfig cfg funcName config =
          Except.ok (Json.obj fs2) := heq2
      constructor
      · intro msg hcontra
        rw [heq3] at hcontra
        cases hcontra
      · intro o ho
        rw [heq3] at ho
        cases ho
        show findVal fs2 "requestBody" = none
        rw [findVal_applyDocSecurity_ok _ _ _ _ _ hds (by simp),
          findVal_applyAuthorizerSecurity _ _ _ _ (by simp)]
        exact (findVal_baseOperationFields _ _ _ _ hb).2 hrm

/-- C1 counterexample: a documentation block with `requestBody` set (a
    description) and no `requestModels` — generation succeeds with an
    operation object that visibly has no `requestBody` key, instead of
    raising the claimed fatal error. -/
theorem c1_counterexample :
    getOperationFromConfig ⟨none, none, none, none, none, none⟩ "createPet"
      ⟨"pets", "POST", none,
       some ⟨none, none, none, none, none, none, none, none, none,
             some (some "A new pet"), none, none, none⟩⟩ =
    Except.ok (Json.obj [("operationId", Json.str "createPet"),
                         ("parameters", Json.arr []),
                         ("responses", Json.obj [])]) := by
  simp [getOperationFromConfig, baseOperationFields, opSummaryField, opDescriptionField,
    opTagsField, opDeprecatedField, opRequestBodyField, applyAuthorizerSecurity,
    applyDocSecurity, getParametersFromConfig, paramsOfBlock, getResponsesFromConfig,
    setKey]

/-- C1 witness: the amended theorem applied to the counterexample input. -/
theorem c1_witness :
    (getOperationFromConfig ⟨none, none, none, none, none, none⟩ "createPet"
      ⟨"pets", "POST", none,
       some ⟨none, none, none, none, none, none, none, none, none,
             some (some "A new pet"), none, none, none⟩⟩ ≠
      Except.error (JsError.error "Required requestModels in")) ∧
    (Json.obj [("operationId", Json.str "createPet"),
               ("parameters", Json.arr []),
               ("responses", Json.obj [])]).lookup "requestBody" = none :=
  ⟨(c1_no_fatal_without_requestModels ⟨none, none, none, none, none, none⟩ "createPet"
      ⟨"pets", "POST", none,
       some ⟨none, none, none, none, none, none, none, none, none,
             some (some "A new pet"), none, none, none⟩⟩
      ⟨none, none, none, none, none, none, none, none, none,
       some (some "A new pet"), none, none, none⟩ rfl rfl).1 "Required requestModels in",
   (c1_no_fatal_without_requestModels ⟨none, none, none, none, none, none⟩ "createPet"
      ⟨"pets", "POST", none,
       some ⟨none, none, none, none, none, none, none, none, none,
             some (some "A new pet"), none, none, none⟩⟩
      ⟨none, none, none, none, none, none, none, none, none,
       some (some "A new pet"), none, none, none⟩ rfl rfl).2 _
     (by simp [getOperationFromConfig, baseOperationFields, opSummaryField,
       opDescriptionField, opTagsField, opDeprecatedField, opRequestBodyField,
       applyAuthorizerSecurity, applyDocSecurity, getParametersFromConfig,
       paramsOfBlock, getResponsesFromConfig, setKey])⟩

/-- C10: a documentation block that declares a `security` list while the
    top-level configuration declares no `security` definitions makes
    operation construction abort with a TypeError
    (`this.config.security.filter` on line 176 reads a property of
    `undefined`) instead of silently omitting the entry. -/
theorem c10_doc_security_without_config_security_crashes :
    getOperationFromConfig ⟨none, none, none, none, none, none⟩ "listPets"
      ⟨"pets", "GET", none,
       some ⟨none, none, none, none, none, none, none, none, none, none, none, none,
             some ["ApiKey"]⟩⟩ =
    Except.error (JsError.typeError "cannot read filter of undefined") := by
  simp [getOperationFromConfig, baseOperationFields, opSummaryField, opDescriptionField,
    opTagsField, opDeprecatedField, opRequestBodyField, applyAuthorizerSecurity,
    applyDocSecurity, getParametersFromConfig, paramsOfBlock, getResponsesFromConfig,
    setKey]

/- Characterisations of the two security-resolution steps. -/

theorem applyDocSecurity_none (cfg : DefinitionConfig) (d : EventDocumentation)
    (fs : List (String × Json)) (hdoc : d.security = none) :
    applyDocSecurity cfg d fs = .ok fs := by
  unfold applyDocSecurity
  rw [hdoc]

theorem applyDocSecurity_noSec (cfg : DefinitionConfig) (d : EventDocumentation)
    (fs : List (String × Json)) (names : List String)
    (hdoc : d.security = some names) (hsec : cfg.security = none) :
    applyDocSecurity cfg d fs = .error (.typeError "cannot read filter of undefined") := by
  unfold applyDocSecurity
  rw [hdoc, hsec]

theorem applyDocSecurity_some (cfg : DefinitionConfig) (d : EventDocumentation)
    (fs : List (String × Json)) (names : List String) (secList : List SecurityDef)
    (hdoc : d.security = some names) (hsec : cfg.security = some secList) :
    applyDocSecurity cfg d fs =
      .ok (if (secList.filter (fun s => names.contains s.name)).length > 0
           then setKey fs "security"
             (Json.arr ((secList.filter (fun s => names.contains s.name)).map
               (fun s => Json.obj [(s.name, Json.arr [])])))
           else fs) := by
  unfold applyDocSecurity
  rw [hdoc, hsec]

theorem applyAuthorizerSecurity_of_none (cfg : DefinitionConfig)
    (fs : List (String × Json)) :
    applyAuthorizerSecurity cfg none fs = fs := by
  unfold applyAuthorizerSecurity
  cases cfg.security <;> rfl

theorem applyAuthorizerSecurity_of_noSec (cfg : DefinitionConfig) (a : Authorizer)
    (fs : List (String × Json)) (h : cfg.security = none) :
    applyAuthorizerSecurity cfg (some a) fs = fs := by
  unfold applyAuthorizerSecurity
  rw [h]

theorem applyAuthorizerSecurity_of_falsy (cfg : DefinitionConfig) (a : Authorizer)
    (secList : List SecurityDef) (fs : List (String × Json))
    (h : cfg.security = some secList) (ht : authTruthy a = false) :
    applyAuthorizerSecurity cfg (some a) fs = fs := by
  unfold applyAuthorizerSecurity
  rw [h]
  simp [ht]

theorem applyAuthorizerSecurity_of_noFind (cfg : DefinitionConfig) (a : Authorizer)
    (secList : List SecurityDef) (fs : List (String × Json))
    (h : cfg.security = some secList) (ht : authTruthy a = true)
    (hf : secList.find? (fun s => s.authorizerName == authName a) = none) :
    applyAuthorizerSecurity cfg (some a) fs = fs := by
  unfold applyAuthorizerSecurity
  rw [h]
  simp [ht, hf]

theorem applyAuthorizerSecurity_of_find (cfg : DefinitionConfig) (a : Authorizer)
    (secList : List SecurityDef) (s0 : SecurityDef) (fs : List (String × Json))
    (h : cfg.security = some secList) (ht : authTruthy a = true)
    (hf : secList.find? (fun s => s.authorizerName == authName a) = some s0) :
    applyAuthorizerSecurity cfg (some a) fs =
      setKey fs "security" (Json.arr [Json.obj [(s0.name, Json.arr [])]]) := by
  unfold applyAuthorizerSecurity
  rw [h]
  simp [ht, hf]

/-- C3: when both security-resolution rules apply — the event authorizer
    matches a security definition's `authorizerName`, and the documentation
    block declares a `security` list with at least one declared name — the
    documentation-declared list replaces the authorizer-derived requirement,
    one entry per matching name; and when neither rule matches, the operation
    carries no `security` field at all. -/
theorem c3_security_resolution :
    (∀ (cfg : DefinitionConfig) (funcName : String) (config : HttpEventConfig)
       (d : EventDocumentation) (a : Authorizer) (s0 : SecurityDef)
       (names : List String) (secList : List SecurityDef) (o : Json),
       config.documentation = some d →
       cfg.security = some secList →
       config.authorizer = some a →
       authTruthy a = true →
       secList.find? (fun s => s.authorizerName == authName a) = some s0 →
       d.security = some names →
       secList.filter (fun s => names.contains s.name) ≠ [] →
       getOperationFromConfig cfg funcName config = Except.ok o →
       o.lookup "security" = some (Json.arr
         ((secList.filter (fun s => names.contains s.name)).map
           (fun s => Json.obj [(s.name, Json.arr [])])))) ∧
    (∀ (cfg : DefinitionConfig) (funcName : String) (config : HttpEventConfig)
       (d : EventDocumentation) (o : Json),
       config.documentation = some d →
       (∀ a, config.authorizer = some a → authTruthy a = true →
          ∀ secList, cfg.security = some secList →
            secList.find? (fun s => s.authorizerName == authName a) = none) →
       (∀ names secList, d.security = some names → cfg.security = some secList →
          secList.filter (fun s => names.contains s.name) = []) →
       getOperationFromConfig cfg funcName config = Except.ok o →
       o.lookup "security" = none) := by
  constructor
  · intro cfg funcName config d a s0 names secList o hd hsec hauth htruthy hfind hdoc hne hok
    have heq := getOperationFromConfig_eq cfg funcName config d hd
    cases hb : baseOperationFields cfg funcName d with
    | error e =>
      rw [hb] at heq
      have heq2 : getOperationFromConfig cfg funcName config = Except.error e := heq
      rw [heq2] at hok
      cases hok
    | ok fs =>
      rw [hb] at heq
      have heq2 : getOperationFromConfig cfg funcName config =
          match applyDocSecurity cfg d (applyAuthorizerSecurity cfg config.authorizer fs) with
          | .error e => .error e
          | .ok fs2 => .ok (Json.obj fs2) := heq
      rw [applyDocSecurity_some cfg d _ names secList hdoc hsec] at heq2
      rw [if_pos (List.length_pos.mpr hne)] at heq2
      have heq3 : getOperationFromConfig cfg funcName config =
          Except.ok (Json.obj (setKey (applyAuthorizerSecurity cfg config.authorizer fs)
            "security" (Json.arr ((secList.filter (fun s => names.contains s.name)).map
              (fun s => Json.obj [(s.name, Json.arr [])]))))) := heq2
      rw [heq3] at hok
      cases hok
      show findVal (setKey _ "security" _) "security" = _
      rw [findVal_setKey_self]
  · intro cfg funcName config d o hd hr1 hr2 hok
    have heq := getOperationFromConfig_eq cfg funcName config d hd
    cases hb : baseOperationFields cfg funcName d with
    | error e =>
      rw [hb] at heq
      have heq2 : getOperationFromConfig cfg funcName config = Except.error e := heq
      rw [heq2] at hok
      cases hok
    | ok fs =>
      rw [hb] at heq
      have heq2 : getOperationFromConfig cfg funcName config =
          match applyDocSecurity cfg d (applyAuthorizerSecurity cfg config.authorizer fs) with
          | .error e => .error e
          | .ok fs2 => .ok (Json.obj fs2) := heq
      have hfsA : applyAuthorizerSecurity cfg config.authorizer fs = fs := by
        cases hca : config.authorizer with
        | none => exact applyAuthorizerSecurity_of_none cfg fs
        | some a =>
          cases hcs : cfg.security with
          | none => exact applyAuthorizerSecurity_of_noSec cfg a fs hcs
          | some secList =>
            cases htr : authTruthy a with
            | false => exact applyAuthorizerSecurity_of_falsy cfg a secList fs hcs htr
            | true =>
              exact applyAuthorizerSecurity_of_noFind cfg a secList fs hcs htr
                (hr1 a hca htr secList hcs)
      rw [hfsA] at heq2
      have hnone := (findVal_baseOperationFields _ _ _ _ hb).1
      cases hdoc : d.security with
      | none =>
        rw [applyDocSecurity_none cfg d fs hdoc] at heq2
        have heq3 : getOperationFromConfig cfg funcName config =
            Except.ok (Json.obj fs) := heq2
        rw [heq3] at hok
        cases hok
        exact hnone
      | some names =>
        cases hcs : cfg.security with
        | none =>
          rw [applyDocSecurity_noSec cfg d fs names hdoc hcs] at heq2
          have heq3 : getOperationFromConfig cfg funcName config =
              Except.error (.typeError "cannot read filter of undefined") := heq2
          rw [heq3] at hok
          cases hok
        | some secList =>
          rw [applyDocSecurity_some cfg d fs names secList hdoc hcs,
            hr2 names secList hdoc hcs] at heq2
          rw [if_neg (by simp)] at heq2
          have heq3 : getOperationFromConfig cfg funcName config =
              Except.ok (Json.obj fs) := heq2
          rw [heq3] at hok
          cases hok
          exact hnone

/-- C3 witness: with security definitions ApiKey (authorizerName auth1) and
    OAuth, an event authorizer `auth1` and a documentation security list
    `[OAuth]`, the emitted security is the documentation-derived `[OAuth]`
    entry; with no definitions, no authorizer and no list, no `security`
    field is emitted. -/
theorem c3_witness :
    (Json.obj [("operationId", Json.str "listPets"), ("parameters", Json.arr []),
       ("responses", Json.obj []),
       ("security", Json.arr [Json.obj [("OAuth", Json.arr [])]])]).lookup "security" =
      some (Json.arr [Json.obj [("OAuth", Json.arr [])]]) ∧
    (Json.obj [("operationId", Json.str "getPet"), ("parameters", Json.arr []),
       ("responses", Json.obj [])]).lookup "security" = none := by
  constructor
  · exact c3_security_resolution.1
      ⟨none, none, none, none, none,
       some [⟨"ApiKey", some "auth1", []⟩, ⟨"OAuth", none, []⟩]⟩
      "listPets"
      ⟨"pets", "GET", some (Authorizer.str "auth1"),
       some ⟨none, none, none, none, none, none, none, none, none, none, none, none,
             some ["OAuth"]⟩⟩
      ⟨none, none, none, none, none, none, none, none, none, none, none, none,
       some ["OAuth"]⟩
      (Authorizer.str "auth1") ⟨"ApiKey", some "auth1", []⟩ ["OAuth"]
      [⟨"ApiKey", some "auth1", []⟩, ⟨"OAuth", none, []⟩] _
      rfl rfl rfl (by decide) rfl rfl (by simp)
      (by simp [getOperationFromConfig, baseOperationFields, opSummaryField,
        opDescriptionField, opTagsField, opDeprecatedField, opRequestBodyField,
        applyAuthorizerSecurity, applyDocSecurity, getParametersFromConfig,
        paramsOfBlock, getResponsesFromConfig, authTruthy, authName, setKey, findVal,
        List.find?, List.filter])
  · exact c3_security_resolution.2
      ⟨none, none, none, none, none, none⟩ "getPet"
      ⟨"pet", "GET", none,
       some ⟨none, none, none, none, none, none, none, none, none, none, none, none,
             none⟩⟩
      ⟨none, none, none, none, none, none, none, none, none, none, none, none, none⟩ _
      rfl
      (by intro a ha; exact absurd ha (by simp))
      (by intro names secList hn; exact absurd hn (by simp))
      (by simp [getOperationFromConfig, baseOperationFields, opSummaryField,
        opDescriptionField, opTagsField, opDeprecatedField, opRequestBodyField,
        applyAuthorizerSecurity, applyDocSecurity, getParametersFromConfig,
        paramsOfBlock, getResponsesFromConfig, setKey])

/-- Merging a fragment into the empty object yields the fragment. -/
theorem merge_nil_obj (fb : List (String × Json)) :
    Json.merge (Json.obj []) (Json.obj fb) = Json.obj fb := by
  rw [Json.merge]
  simp [mergeFields, hasKey, findVal]

theorem getResponseContentStep_of_models (cfg : DefinitionConfig) (models : List Model)
    (h : cfg.models = some models) (content : Json) (kv : String × String) :
    getResponseContentStep cfg content kv =
      match models.find? (fun m => m.name == kv.2) with
      | some m => .ok (Json.merge content (Json.obj [(kv.1, attachExamples m
          (Json.obj [("schema", Json.obj [("$ref",
            Json.str ("#/components/schemas/" ++ kv.2))])]))]))
      | none => .ok content := by
  unfold getResponseContentStep
  rw [h]

/-- With a model registry present, the response-content fold never fails. -/
theorem getResponseContent_fold_ok (cfg : DefinitionConfig) (models : List Model)
    (h : cfg.models = some models) (pairs : List (String × String)) :
    ∀ acc : Json, ∃ c, pairs.foldlM (getResponseContentStep cfg) acc = .ok c := by
  induction pairs with
  | nil => intro acc; exact ⟨acc, rfl⟩
  | cons kv rest ih =>
    intro acc
    rw [List.foldlM_cons, getResponseContentStep_of_models cfg models h acc kv]
    cases hf : models.find? (fun m => m.name == kv.2) with
    | some m =>
      obtain ⟨c, hc⟩ := ih (Json.merge acc (Json.obj [(kv.1, attachExamples m
        (Json.obj [("schema", Json.obj [("$ref",
          Json.str ("#/components/schemas/" ++ kv.2))])]))]))
      exact ⟨c, hc⟩
    | none =>
      obtain ⟨c, hc⟩ := ih acc
      exact ⟨c, hc⟩

/-- Content types whose model name resolves nowhere contribute nothing. -/
theorem getResponseContent_fold_unresolved (cfg : DefinitionConfig) (models : List Model)
    (h : cfg.models = some models) (pairs : List (String × String))
    (hall : ∀ kv ∈ pairs, models.find? (fun m => m.name == kv.2) = none) :
    ∀ acc : Json, pairs.foldlM (getResponseContentStep cfg) acc = .ok acc := by
  induction pairs with
  | nil => intro acc; rfl
  | cons kv rest ih =>
    intro acc
    rw [List.foldlM_cons, getResponseContentStep_of_models cfg models h acc kv,
      hall kv (by simp)]
    exact ih (fun kv2 h2 => hall kv2 (by simp [h2])) acc

/-- C8: a documented method response naming models absent from the model
    registry does not raise: unresolved names are simply omitted (an empty
    `content` map when none resolve), and the status-code entry is still
    produced, so generation continues. -/
theorem c8_missing_response_model_silent
    (cfg : DefinitionConfig) (models : List Model) (pairs : List (String × String))
    (h : cfg.models = some models) :
    (∃ content, getResponseContent cfg (some pairs) = .ok content) ∧
    ((∀ kv ∈ pairs, models.find? (fun m => m.name == kv.2) = none) →
       getResponseContent cfg (some pairs) = .ok (Json.obj [])) ∧
    (∀ (statusCode : String) (rb : Option (Option String)) (rh : Option (List HeaderDoc))
       (d : EventDocumentation) (content : Json),
       d.methodResponses = some [⟨statusCode, rb, some pairs, rh⟩] →
       getResponseContent cfg (some pairs) = .ok content →
       ∃ entry, getResponsesFromConfig cfg d = .ok (Json.obj [(statusCode, entry)]) ∧
         entry.lookup "content" = some content) := by
  refine ⟨?_, ?_, ?_⟩
  · obtain ⟨c, hc⟩ := getResponseContent_fold_ok cfg models h pairs (Json.obj [])
    exact ⟨c, hc⟩
  · intro hall
    exact getResponseContent_fold_unresolved cfg models h pairs hall (Json.obj [])
  · intro statusCode rb rh d content hmr hcontent
    unfold getResponsesFromConfig
    rw [hmr]
    clear hmr
    dsimp only
    cases rh with
    | none =>
      refine ⟨Json.obj [("description", Json.str (match rb with
          | some (some dsc) => dsc
          | _ => "Status " ++ statusCode ++ " Response")), ("content", content)], ?_, ?_⟩
      · rw [List.foldlM_cons]
        dsimp only
        rw [hcontent]
        show Except.ok (Json.merge (Json.obj []) _) = _
        rw [merge_nil_obj]
      · simp [Json.lookup, findVal]
    | some headers =>
      refine ⟨Json.obj (setKey [("description", Json.str (match rb with
          | some (some dsc) => dsc
          | _ => "Status " ++ statusCode ++ " Response")), ("content", content)]
          "headers" (buildHeaders headers)), ?_, ?_⟩
      · rw [List.foldlM_cons]
        dsimp only
        rw [hcontent]
        show Except.ok (Json.merge (Json.obj []) _) = _
        rw [merge_nil_obj]
      · rw [Json.lookup]
        rw [findVal_setKey_ne _ _ _ _ (by simp)]
        simp [findVal]

/-- C8 witness: one declared model `Pet`, a 200 response documented with the
    unknown model name `Missing`: the content map is empty and the 200 entry
    is still produced. -/
theorem c8_witness :
    getResponseContent
      ⟨none, none, none, none,
       some [⟨"Pet", some (Json.obj [("type", Json.str "object")]), none, none⟩], none⟩
      (some [("application/json", "Missing")]) = .ok (Json.obj []) ∧
    ∃ entry, getResponsesFromConfig
        ⟨none, none, none, none,
         some [⟨"Pet", some (Json.obj [("type", Json.str "object")]), none, none⟩], none⟩
        ⟨none, none, none, none, none, none, none, none, none, none, none,
         some [⟨"200", none, some [("application/json", "Missing")], none⟩], none⟩ =
        .ok (Json.obj [("200", entry)]) ∧
      entry.lookup "content" = some (Json.obj []) := by
  have hall : ∀ kv ∈ [("application/json", "Missing")],
      ([⟨"Pet", some (Json.obj [("type", Json.str "object")]), none, none⟩] :
        List Model).find? (fun m => m.name == kv.2) = none := by
    intro kv hkv
    simp only [List.mem_singleton] at hkv
    subst hkv
    rfl
  have h2 := (c8_missing_response_model_silent
    ⟨none, none, none, none,
     some [⟨"Pet", some (Json.obj [("type", Json.str "object")]), none, none⟩], none⟩
    [⟨"Pet", some (Json.obj [("type", Json.str "object")]), none, none⟩]
    [("application/json", "Missing")] rfl).2.1 hall
  refine ⟨h2, ?_⟩
  exact (c8_missing_response_model_silent
    ⟨none, none, none, none,
     some [⟨"Pet", some (Json.obj [("type", Json.str "object")]), none, none⟩], none⟩
    [⟨"Pet", some (Json.obj [("type", Json.str "object")]), none, none⟩]
    [("application/json", "Missing")] rfl).2.2 "200" none none
    ⟨none, none, none, none, none, none, none, none, none, none, none,
     some [⟨"200", none, some [("application/json", "Missing")], none⟩], none⟩
    (Json.obj []) rfl h2

theorem startsWith_slash_append (p : String) : jsStartsWith ("/" ++ p) "/" = true := by
  simp [jsStartsWith, String.data_append, List.isPrefixOf]

/-- C6: the path key a documented event contributes is the declared path with
    exactly one `/` prepended when it does not already start with one (and
    unchanged when it does), and the method key is the lower-cased declared
    method; the resulting key always begins with `/`. -/
theorem c6_path_and_method_keys
    (cfg : DefinitionConfig) (funcName : String) (paths : Json) (e : FunctionEvent)
    (hec : HttpEventConfig) (d : EventDocumentation) (op : Json)
    (he : (e.http <|> e.httpApi) = some hec)
    (hd : hec.documentation = some d)
    (hop : getOperationFromConfig cfg (d.operationId.getD funcName) hec = .ok op) :
    readFunctionsEvent cfg funcName paths e = .ok (Json.merge paths
      (Json.obj [(normalizePath hec.path, Json.obj [(jsToLowerCase hec.method, op)])])) ∧
    jsStartsWith (normalizePath hec.path) "/" = true ∧
    (jsStartsWith hec.path "/" = false → normalizePath hec.path = "/" ++ hec.path) ∧
    (jsStartsWith hec.path "/" = true → normalizePath hec.path = hec.path) := by
  refine ⟨?_, ?_, ?_, ?_⟩
  · unfold readFunctionsEvent
    simp only [he, hd, hop]
  · unfold normalizePath
    cases hs : jsStartsWith hec.path "/" with
    | true => simp [hs]
    | false =>
      rw [if_neg (by simp [hs])]
      exact startsWith_slash_append hec.path
  · intro hs
    unfold normalizePath
    rw [if_neg (by simp [hs])]
  · intro hs
    unfold normalizePath
    rw [if_pos hs]

/-- C6 witness: at declared path `pets` (no leading slash) and method `GET`,
    the contributed fragment key is `/pets` with method key `get`. -/
theorem c6_witness :
    readFunctionsEvent ⟨none, none, none, none, none, none⟩ "listPets" (Json.obj [])
      ⟨some ⟨"pets", "GET", none,
        some ⟨none, none, none, none, none, none, none, none, none, none, none, none,
              none⟩⟩, none⟩ =
      .ok (Json.merge (Json.obj [])
        (Json.obj [(normalizePath "pets",
          Json.obj [(jsToLowerCase "GET",
            Json.obj [("operationId", Json.str "listPets"),
                      ("parameters", Json.arr []),
                      ("responses", Json.obj [])])])])) ∧
    jsStartsWith (normalizePath "pets") "/" = true ∧
    (jsStartsWith "pets" "/" = false → normalizePath "pets" = "/" ++ "pets") ∧
    (jsStartsWith "pets" "/" = true → normalizePath "pets" = "pets") :=
  c6_path_and_method_keys ⟨none, none, none, none, none, none⟩ "listPets" (Json.obj [])
    ⟨some ⟨"pets", "GET", none,
      some ⟨none, none, none, none, none, none, none, none, none, none, none, none,
            none⟩⟩, none⟩
    ⟨"pets", "GET", none,
      some ⟨none, none, none, none, none, none, none, none, none, none, none, none,
            none⟩⟩
    ⟨none, none, none, none, none, none, none, none, none, none, none, none, none⟩
    (Json.obj [("operationId", Json.str "listPets"), ("parameters", Json.arr []),
               ("responses", Json.obj [])])
    rfl rfl
    (by simp [getOperationFromConfig, baseOperationFields, opSummaryField,
      opDescriptionField, opTagsField, opDeprecatedField, opRequestBodyField,
      applyAuthorizerSecurity, applyDocSecurity, getParametersFromConfig,
      paramsOfBlock, getResponsesFromConfig, setKey])

@[simp] theorem findVal_singleton (k q : String) (v : Json) :
    findVal [(k, v)] q = if k = q then some v else none := by
  simp [findVal]

theorem orElse_some_none {α : Type} (a : α) : (some a <|> none : Option α) = some a := rfl

theorem readFunctions_nil (cfg : DefinitionConfig) (paths0 : Json) :
    readFunctions cfg paths0 [] = .ok paths0 := rfl

theorem readFunctions_cons (cfg : DefinitionConfig) (paths0 : Json)
    (f : FunctionConfig) (rest : List FunctionConfig) :
    readFunctions cfg paths0 (f :: rest) =
      ((getHttpEvents f.events).foldlM (readFunctionsEvent cfg f.functionName) paths0) >>=
        (fun paths => readFunctions cfg paths rest) := by
  unfold readFunctions
  rw [List.foldlM_cons]

theorem foldlM_singleton {α β : Type} (f : β → α → Except JsError β) (b : β) (a : α) :
    List.foldlM f b [a] = f b a := by
  rw [List.foldlM_cons]
  cases h : f b a <;> rfl

/-- C4: the deep merge preserves keys present on one side, merges shared
    object keys recursively, replaces non-object leaves with the later value;
    and two function configurations contributing operations at distinct
    (path, method) pairs — same path with different methods, or different
    paths — both end up in the final paths tree. -/
theorem c4_merge_accumulates :
    (∀ (fa fb : List (String × Json)) (k : String),
       Json.lookup (Json.merge (.obj fa) (.obj fb)) k =
         match findVal fa k, findVal fb k with
         | some va, some vb => some (Json.merge va vb)
         | some va, none => some va
         | none, some vb => some vb
         | none, none => none) ∧
    (∀ (a b : Json), b.isObj = false → Json.merge a b = b) ∧
    (∀ (cfg : DefinitionConfig) (fn1 fn2 : String) (hec1 hec2 : HttpEventConfig)
       (d1 d2 : EventDocumentation) (o1 o2 : Json),
       hec1.documentation = some d1 → hec2.documentation = some d2 →
       getOperationFromConfig cfg (d1.operationId.getD fn1) hec1 = .ok o1 →
       getOperationFromConfig cfg (d2.operationId.getD fn2) hec2 = .ok o2 →
       (normalizePath hec1.path ≠ normalizePath hec2.path ∨
        jsToLowerCase hec1.method ≠ jsToLowerCase hec2.method) →
       ∃ paths, readFunctions cfg (Json.obj [])
           [⟨fn1, [⟨some hec1, none⟩]⟩, ⟨fn2, [⟨some hec2, none⟩]⟩] = .ok paths ∧
         (paths.lookup (normalizePath hec1.path)).bind
             (fun ms => ms.lookup (jsToLowerCase hec1.method)) = some o1 ∧
         (paths.lookup (normalizePath hec2.path)).bind
             (fun ms => ms.lookup (jsToLowerCase hec2.method)) = some o2) := by
  refine ⟨lookup_merge_obj, ?_, ?_⟩
  · intro a b hb
    cases b <;> cases a <;> simp_all [Json.merge, Json.isObj]
  · intro cfg fn1 fn2 hec1 hec2 d1 d2 o1 o2 hd1 hd2 hop1 hop2 hne
    have hev1 : readFunctionsEvent cfg fn1 (Json.obj []) ⟨some hec1, none⟩ =
        .ok (Json.obj [(normalizePath hec1.path,
          Json.obj [(jsToLowerCase hec1.method, o1)])]) := by
      unfold readFunctionsEvent
      simp only [orElse_some_none, hd1, hop1]
      rw [merge_nil_obj]
    have hev2 : readFunctionsEvent cfg fn2
        (Json.obj [(normalizePath hec1.path, Json.obj [(jsToLowerCase hec1.method, o1)])])
        ⟨some hec2, none⟩ =
        .ok (Json.merge
          (Json.obj [(normalizePath hec1.path, Json.obj [(jsToLowerCase hec1.method, o1)])])
          (Json.obj [(normalizePath hec2.path,
            Json.obj [(jsToLowerCase hec2.method, o2)])])) := by
      unfold readFunctionsEvent
      simp only [orElse_some_none, hd2, hop2]
    have hrf : readFunctions cfg (Json.obj [])
        [⟨fn1, [⟨some hec1, none⟩]⟩, ⟨fn2, [⟨some hec2, none⟩]⟩] =
        .ok (Json.merge
          (Json.obj [(normalizePath hec1.path, Json.obj [(jsToLowerCase hec1.method, o1)])])
          (Json.obj [(normalizePath hec2.path,
            Json.obj [(jsToLowerCase hec2.method, o2)])])) := by
      rw [readFunctions_cons]
      dsimp only
      rw [show getHttpEvents [(⟨some hec1, none⟩ : FunctionEvent)] =
          [(⟨some hec1, none⟩ : FunctionEvent)] from rfl]
      rw [foldlM_singleton, hev1]
      show readFunctions cfg _ [⟨fn2, [⟨some hec2, none⟩]⟩] = _
      rw [readFunctions_cons]
      dsimp only
      rw [show getHttpEvents [(⟨some hec2, none⟩ : FunctionEvent)] =
          [(⟨some hec2, none⟩ : FunctionEvent)] from rfl]
      rw [foldlM_singleton, hev2]
      show readFunctions cfg _ [] = _
      rw [readFunctions_nil]
    refine ⟨_, hrf, ?_, ?_⟩
    · rw [lookup_merge_obj]
      by_cases hp : normalizePath hec2.path = normalizePath hec1.path
      · have hm2 : ¬ (jsToLowerCase hec2.method = jsToLowerCase hec1.method) := by
          intro h
          rcases hne with hh | hh
          · exact hh (hp.symm)
          · exact hh (h.symm)
        simp only [findVal_singleton, hp, eq_self_iff_true, if_true, Option.bind]
        rw [lookup_merge_obj]
        simp [hm2]
      · simp [hp, Option.bind, Json.lookup]
    · rw [lookup_merge_obj]
      by_cases hp : normalizePath hec1.path = normalizePath hec2.path
      · have hm : ¬ (jsToLowerCase hec1.method = jsToLowerCase hec2.method) := by
          intro h
          rcases hne with hh | hh
          · exact hh hp
          · exact hh h
        simp only [findVal_singleton, hp, eq_self_iff_true, if_true, Option.bind]
        rw [lookup_merge_obj]
        simp [hm]
      · simp [hp, Option.bind, Json.lookup]

/-- C4 witness: two functions at the same path `pets`, methods GET and POST —
    both operations are present in the final tree. -/
theorem c4_witness :
    ∃ paths, readFunctions ⟨none, none, none, none, none, none⟩ (Json.obj [])
        [⟨"listPets", [⟨some ⟨"pets", "GET", none,
           some ⟨none, none, none, none, none, none, none, none, none, none, none,
                 none, none⟩⟩, none⟩]⟩,
         ⟨"createPet", [⟨some ⟨"pets", "POST", none,
           some ⟨none, none, none, none, none, none, none, none, none, none, none,
                 none, none⟩⟩, none⟩]⟩] = .ok paths ∧
      (paths.lookup (normalizePath "pets")).bind
          (fun ms => ms.lookup (jsToLowerCase "GET")) =
        some (Json.obj [("operationId", Json.str "listPets"),
                        ("parameters", Json.arr []), ("responses", Json.obj [])]) ∧
      (paths.lookup (normalizePath "pets")).bind
          (fun ms => ms.lookup (jsToLowerCase "POST")) =
        some (Json.obj [("operationId", Json.str "createPet"),
                        ("parameters", Json.arr []), ("responses", Json.obj [])]) :=
  c4_merge_accumulates.2.2 ⟨none, none, none, none, none, none⟩ "listPets" "createPet"
    ⟨"pets", "GET", none,
      some ⟨none, none, none, none, none, none, none, none, none, none, none, none,
            none⟩⟩
    ⟨"pets", "POST", none,
      some ⟨none, none, none, none, none, none, none, none, none, none, none, none,
            none⟩⟩
    ⟨none, none, none, none, none, none, none, none, none, none, none, none, none⟩
    ⟨none, none, none, none, none, none, none, none, none, none, none, none, none⟩
    (Json.obj [("operationId", Json.str "listPets"), ("parameters", Json.arr []),
               ("responses", Json.obj [])])
    (Json.obj [("operationId", Json.str "createPet"), ("parameters", Json.arr []),
               ("responses", Json.obj [])])
    rfl rfl
    (by simp [getOperationFromConfig, baseOperationFields, opSummaryField,
      opDescriptionField, opTagsField, opDeprecatedField, opRequestBodyField,
      applyAuthorizerSecurity, applyDocSecurity, getParametersFromConfig,
      paramsOfBlock, getResponsesFromConfig, setKey])
    (by simp [getOperationFromConfig, baseOperationFields, opSummaryField,
      opDescriptionField, opTagsField, opDeprecatedField, opRequestBodyField,
      applyAuthorizerSecurity, applyDocSecurity, getParametersFromConfig,
      paramsOfBlock, getResponsesFromConfig, setKey])
    (Or.inr (by decide))

/-- C7 counterexample: a literal schema carrying `"$schema": ""` (present but
    falsy) survives registration untouched: the stored entry still contains
    the `$schema` key, because line 119 tests truthiness, not presence. -/
theorem c7_counterexample :
    schemaEntry (parse (fun _ => Json.null) "u"
      ⟨none, none, none, none,
       some [⟨"M", some (Json.obj [("$schema", Json.str ""), ("type", Json.str "object")]),
              none, none⟩], none⟩) "M" =
      some (Json.obj [("$schema", Json.str ""), ("type", Json.str "object")]) := by
  have hp : parse (fun _ => Json.null) "u"
      ⟨none, none, none, none,
       some [⟨"M", some (Json.obj [("$schema", Json.str ""), ("type", Json.str "object")]),
              none, none⟩], none⟩ =
      Json.obj
      [("openapi", Json.str "3.0.0"),
       ("components", Json.obj
         [("schemas", Json.obj [("M",
            Json.obj [("$schema", Json.str ""), ("type", Json.str "object")])]),
          ("securitySchemes", Json.obj [])]),
       ("info", Json.obj [("title", Json.str ""), ("description", Json.str ""),
                          ("version", Json.str "u")]),
       ("servers", Json.arr []),
       ("paths", Json.obj [])] := by
    simp [parse, initialDefinition, securitySchemesOf, Json.merge, mergeFields,
      mergeValue, hasKey, findVal, List.filter, setSchemaEntry, setKey, cleanSchema,
      dereference, jsTruthy, jsTruthyOpt]
  rw [hp]
  simp [schemaEntry, Json.lookup, findVal]

/-- C7 (amended): for a model registered with a literal object schema, the
    stored `components.schemas[name]` entry has the `$schema` key removed
    whenever the input's `$schema` value is truthy (any non-empty string); a
    falsy `$schema` value, such as the empty string, is retained. -/
theorem c7_schema_key_stripped_amended
    (deriveSchema : TsSchemaRef → Json) (uuidV4 : String) (cfg : DefinitionConfig)
    (name : String) (fields : List (String × Json)) (v : Json) (ex : Option Json)
    (hm : cfg.models = some [⟨name, some (Json.obj fields), none, ex⟩])
    (hs : findVal fields "$schema" = some v)
    (ht : jsTruthy v = true) :
    schemaEntry (parse deriveSchema uuidV4 cfg) name =
      some (Json.obj (eraseKey fields "$schema")) ∧
    (Json.obj (eraseKey fields "$schema")).lookup "$schema" = none := by
  have hparse : parse deriveSchema uuidV4 cfg = Json.obj
      [("openapi", Json.str "3.0.0"),
       ("components", Json.obj
         [("schemas", Json.obj [(name, cleanSchema (Json.obj fields))]),
          ("securitySchemes", Json.obj (securitySchemesOf (cfg.security.getD [])))]),
       ("info", Json.obj [("title", Json.str (cfg.title.getD "")),
                          ("description", Json.str (cfg.description.getD "")),
                          ("version", Json.str (cfg.version.getD uuidV4))]),
       ("servers", cfg.servers.getD (Json.arr [])),
       ("paths", Json.obj [])] := by
    unfold parse
    rw [hm]
    simp [initialDefinition, Json.merge, mergeFields, mergeValue, hasKey, findVal,
      List.filter, jsTruthyOpt, jsTruthy, setSchemaEntry, setKey, dereference]
  have hclean : cleanSchema (Json.obj fields) = Json.obj (eraseKey fields "$schema") := by
    unfold cleanSchema
    dsimp only
    rw [hs]
    simp [ht]
  constructor
  · rw [hparse, hclean]
    simp [schemaEntry, Json.lookup, findVal]
  · simp [Json.lookup, findVal_eraseKey_self]

/-- C7 witness: a schema with a truthy `$schema` is stored with the key
    stripped. -/
theorem c7_witness :
    schemaEntry (parse (fun _ => Json.null) "u"
      ⟨none, none, none, none,
       some [⟨"Pet", some (Json.obj [("$schema", Json.str "draft-07"),
              ("type", Json.str "object")]), none, none⟩], none⟩) "Pet" =
      some (Json.obj (eraseKey [("$schema", Json.str "draft-07"),
        ("type", Json.str "object")] "$schema")) ∧
    (Json.obj (eraseKey [("$schema", Json.str "draft-07"),
      ("type", Json.str "object")] "$schema")).lookup "$schema" = none :=
  c7_schema_key_stripped_amended (fun _ => Json.null) "u"
    ⟨none, none, none, none,
     some [⟨"Pet", some (Json.obj [("$schema", Json.str "draft-07"),
            ("type", Json.str "object")]), none, none⟩], none⟩
    "Pet" [("$schema", Json.str "draft-07"), ("type", Json.str "object")]
    (Json.str "draft-07") none rfl rfl rfl
